/-
  Verification of the Betters-POS server (src/server.ts) against its
  natural-language specification.

  The embedding models the SQLite store as a record of three tables
  (products, sales, sale_details) plus the AUTOINCREMENT counters, and
  each SQL statement of the server as a pure function on that state.
  Currency amounts (SQLite REAL) are modelled as rationals; timestamps
  as naturals.  The better-sqlite3 `db.transaction` wrapper is modelled
  with an explicit failure oracle `fail : Nat → Bool` saying which of the
  sequentially executed statements raises a runtime error; on the first
  failure the transaction rolls back to the initial state, exactly as the
  library does.  The receipt printer is modelled as the list of escpos
  directives the handler emits.
-/
import Mathlib

namespace BettersPOS

/-- A row of the `products` table. -/
structure Product where
  id : Nat
  name : String
  price : Rat
  stock : Int
  barcode : Option String
deriving DecidableEq

/-- A row of the `sales` table.  `date` is the DATETIME DEFAULT
CURRENT_TIMESTAMP value, modelled as a natural-number timestamp. -/
structure Sale where
  id : Nat
  total : Rat
  date : Nat
deriving DecidableEq

/-- A row of the `sale_details` table. -/
structure SaleDetail where
  id : Nat
  sale_id : Nat
  product_id : Nat
  quantity : Int
  price : Rat
deriving DecidableEq

/-- One element of the `items` array of a POST /api/sales body:
`{ id, quantity, price }`. -/
structure SaleItem where
  id : Nat
  quantity : Int
  price : Rat
deriving DecidableEq

/-- The SQLite database state: the three tables in row-insertion order,
plus the AUTOINCREMENT counters for `sales.id` and `sale_details.id`. -/
structure DB where
  products : List Product
  sales : List Sale
  sale_details : List SaleDetail
  nextSaleId : Nat
  nextDetailId : Nat
deriving DecidableEq

/-- `INSERT INTO sales (total) VALUES (?)`: appends a sale row with the
next AUTOINCREMENT id and the current timestamp, returning
`info.lastInsertRowid`. -/
def insertSaleStmt (total : Rat) (now : Nat) (db : DB) : DB × Nat :=
  ({ db with
      sales := db.sales ++ [{ id := db.nextSaleId, total := total, date := now }],
      nextSaleId := db.nextSaleId + 1 },
   db.nextSaleId)

/-- `INSERT INTO sale_details (sale_id, product_id, quantity, price)
VALUES (?, ?, ?, ?)`. -/
def insertDetailStmt (saleId productId : Nat) (qty : Int) (price : Rat)
    (db : DB) : DB :=
  { db with
      sale_details := db.sale_details ++
        [{ id := db.nextDetailId, sale_id := saleId, product_id := productId,
           quantity := qty, price := price }],
      nextDetailId := db.nextDetailId + 1 }

/-- `UPDATE products SET stock = stock - ? WHERE id = ?`. -/
def updateStockStmt (qty : Int) (pid : Nat) (db : DB) : DB :=
  { db with
      products := db.products.map fun p =>
        if p.id = pid then { p with stock := p.stock - qty } else p }

/-- The body of the transaction's `for` loop: for each item one
`insertDetail.run` then one `updateStock.run`.  `fail k` says whether the
k-th statement execution raises; `none` means the transaction aborts. -/
def runItems (fail : Nat → Bool) (k : Nat) (saleId : Nat) :
    List SaleItem → DB → Option DB
  | [], db => some db
  | it :: rest, db =>
    if fail k then none
    else
      let db1 := insertDetailStmt saleId it.id it.quantity it.price db
      if fail (k + 1) then none
      else runItems fail (k + 2) saleId rest (updateStockStmt it.quantity it.id db1)

/-- The fully committed effect of the transaction loop (no failure). -/
def applyItems (saleId : Nat) : List SaleItem → DB → DB
  | [], db => db
  | it :: rest, db =>
    applyItems saleId rest
      (updateStockStmt it.quantity it.id
        (insertDetailStmt saleId it.id it.quantity it.price db))

/-- The fully committed effect of an entire successful sale transaction. -/
def commitSale (now : Nat) (total : Rat) (items : List SaleItem) (db : DB) : DB :=
  applyItems (insertSaleStmt total now db).2 items (insertSaleStmt total now db).1

/-- `POST /api/sales`: runs the transaction; if any statement fails,
better-sqlite3 rolls the whole transaction back and the handler answers
500, so the store is returned unchanged and the sale id is `none`. -/
def postSales (fail : Nat → Bool) (now : Nat) (db : DB) (total : Rat)
    (items : List SaleItem) : DB × Option Nat :=
  if fail 0 then (db, none)
  else
    let res := insertSaleStmt total now db
    match runItems fail 1 res.2 items res.1 with
    | some db2 => (db2, some res.2)
    | none => (db, none)

/-- The oracle for a run in which no statement raises. -/
def noFail : Nat → Bool := fun _ => false

/-- Total quantity of product `pid` over the cart (an item may occur
several times). -/
def qtySum (pid : Nat) (items : List SaleItem) : Int :=
  ((items.filter fun it => it.id = pid).map fun it => it.quantity).sum

/-- The `sale_details` rows the loop inserts for a cart, with consecutive
AUTOINCREMENT ids starting at `startId`. -/
def detailsOf (saleId : Nat) (startId : Nat) : List SaleItem → List SaleDetail
  | [] => []
  | it :: rest =>
    { id := startId, sale_id := saleId, product_id := it.id,
      quantity := it.quantity, price := it.price } :: detailsOf saleId (startId + 1) rest

/-- A row of the GET /api/sales/:id `items` result:
`SELECT p.name, sd.quantity, sd.price`. -/
structure DetailRow where
  name : String
  quantity : Int
  price : Rat
deriving DecidableEq

/-- The inner-join query of GET /api/sales/:id:
`SELECT p.name, sd.quantity, sd.price FROM sale_details sd
JOIN products p ON sd.product_id = p.id WHERE sd.sale_id = ?`;
a detail row yields one result row per product row whose id matches. -/
def getSaleDetailItems (db : DB) (saleId : Nat) : List DetailRow :=
  (db.sale_details.filter fun sd => sd.sale_id = saleId).flatMap fun sd =>
    (db.products.filter fun p => p.id = sd.product_id).map fun p =>
      { name := p.name, quantity := sd.quantity, price := sd.price }

/-- The printer directives of the escpos driver, as emitted by the
handlers of POST /api/print and POST /api/drawer. -/
structure Cell where
  text : String
  align : String
  width : Rat
deriving DecidableEq

inductive Directive where
  | font (f : String)
  | align (a : String)
  | style (s : String)
  | size (w h : Nat)
  | text (s : String)
  | tableCustom (cells : List Cell)
  | feed (n : Nat)
  | cut
  | close
  | cashdraw (pin : Nat)
deriving DecidableEq

/-- The response of GET /api/sales/:id, plus the two failure responses
of the sale and printer routes. -/
inductive SaleDetailResp where
  | notFound
  | found (sale : Sale) (items : List DetailRow)
deriving DecidableEq

/-- GET /api/sales/:id: looks the sale up (`.get` returns the first row
of `SELECT * FROM sales WHERE id = ?`); on a miss answers 404 without
touching the store or the printer.  The handler returns the (unchanged)
store and the list of printer directives it emitted, which is empty in
both branches since the route never opens a printer device. -/
def getSaleDetail (db : DB) (saleId : Nat) :
    DB × SaleDetailResp × List Directive :=
  match db.sales.find? fun s => s.id = saleId with
  | none => (db, .notFound, [])
  | some s => (db, .found s (getSaleDetailItems db saleId), [])

/-- A row of the GET /api/sales result: `SELECT s.id, s.total, s.date,
COUNT(sd.id) as itemCount FROM sales s LEFT JOIN sale_details sd ON
s.id = sd.sale_id GROUP BY s.id`. -/
structure SalesRow where
  id : Nat
  total : Rat
  date : Nat
  itemCount : Nat
deriving DecidableEq

/-- The grouped row for one sale. -/
def rowOf (db : DB) (s : Sale) : SalesRow :=
  { id := s.id, total := s.total, date := s.date,
    itemCount := db.sale_details.countP fun sd => sd.sale_id = s.id }

/-- Insertion into a list already sorted by descending date: the new row
goes in front of the first row whose date is not larger, so among equal
dates an earlier-inserted row stays first (SQLite's sorter is stable and
GROUP BY s.id scans the sales b-tree in id order). -/
def insDesc (e : SalesRow) : List SalesRow → List SalesRow
  | [] => [e]
  | x :: xs => if x.date ≤ e.date then e :: x :: xs else x :: insDesc e xs

/-- `ORDER BY s.date DESC` as a stable descending sort. -/
def sortDesc : List SalesRow → List SalesRow
  | [] => []
  | x :: xs => insDesc x (sortDesc xs)

/-- GET /api/sales. -/
def listSales (db : DB) : List SalesRow :=
  sortDesc (db.sales.map (rowOf db))

/-- JavaScript `s.padStart(n, c)`. -/
def padStart (s : String) (n : Nat) (c : Char) : String :=
  String.mk (List.replicate (n - s.length) c) ++ s

/-- Two-digit rendering of a value below 100. -/
def pad2 (n : Nat) : String :=
  if n < 10 then "0" ++ toString n else toString n

/-- JavaScript `x.toFixed(2)` on the rational model: round to cents,
half away from zero, and render with exactly two decimals. -/
def toFixed2 (r : Rat) : String :=
  let cents : Int := if 0 ≤ r then ⌊r * 100 + 1 / 2⌋ else -⌊-r * 100 + 1 / 2⌋
  let a : Nat := cents.natAbs
  (if cents < 0 then "-" else "") ++ toString (a / 100) ++ "." ++ pad2 (a % 100)

/-- One element of the `items` array of a POST /api/print body
(`{name, quantity, price}`, as produced by GET /api/sales/:id). -/
structure PrintItem where
  name : String
  quantity : Int
  price : Rat
deriving DecidableEq

/-- The item row the print handler emits for one item:
`tableCustom([{quantity}, {name.substring(0, 15)}, {$total, RIGHT}])`. -/
def printItemRow (it : PrintItem) : Directive :=
  .tableCustom
    [ { text := toString it.quantity, align := "LEFT", width := 15 / 100 },
      { text := it.name.take 15, align := "LEFT", width := 55 / 100 },
      { text := "$" ++ toFixed2 (it.price * it.quantity), align := "RIGHT",
        width := 30 / 100 } ]

inductive PrintResp where
  | printed
  | drawerOpened
  | printerConnFailed
deriving DecidableEq

/-- POST /api/print: if `device.open` reports an error the handler
answers 500 "Printer connection failed" and emits nothing; otherwise it
emits the full format sequence.  `nowStr` is
`new Date().toLocaleString()`. -/
def printReceipt (openFails : Bool) (saleId : Nat) (total : Rat)
    (items : List PrintItem) (nowStr : String) : PrintResp × List Directive :=
  if openFails then (.printerConnFailed, [])
  else
    (.printed,
      [ .font "a", .align "ct", .style "b", .size 2 2,
        .text "BETTERS FABRICA", .text "DE TECNOLOGIA S.A.",
        .size 1 1, .style "normal",
        .text "RUC: 20123456789", .text "Av. Tecnológica 123, Lima",
        .text "--------------------------------",
        .align "lt",
        .text ("Ticket: #" ++ padStart (toString saleId) 6 '0'),
        .text ("Fecha: " ++ nowStr),
        .text "--------------------------------",
        .tableCustom
          [ { text := "Cant", align := "LEFT", width := 15 / 100 },
            { text := "Producto", align := "LEFT", width := 55 / 100 },
            { text := "Total", align := "RIGHT", width := 30 / 100 } ] ]
      ++ items.map printItemRow
      ++ [ .text "--------------------------------",
           .align "rt", .size 1 1, .style "b",
           .text ("TOTAL: $" ++ toFixed2 total),
           .style "normal", .align "ct",
           .text "--------------------------------",
           .text "¡Gracias por su compra!", .text "Vuelva pronto",
           .feed 3, .cut, .close ])

/-- POST /api/drawer: on a failed open, 500 and no directives; otherwise
`printer.cashdraw(2).close()`. -/
def openDrawer (openFails : Bool) : PrintResp × List Directive :=
  if openFails then (.printerConnFailed, [])
  else (.drawerOpened, [.cashdraw 2, .close])

/-! ### Helper lemmas about the transaction semantics -/

lemma qtySum_nil (pid : Nat) : qtySum pid [] = 0 := rfl

lemma qtySum_cons (pid : Nat) (it : SaleItem) (rest : List SaleItem) :
    qtySum pid (it :: rest) =
      (if it.id = pid then it.quantity else 0) + qtySum pid rest := by
  by_cases h : it.id = pid
  · simp [qtySum, List.filter_cons, h]
  · simp [qtySum, List.filter_cons, h]

lemma insertDetailStmt_products (saleId productId : Nat) (qty : Int)
    (price : Rat) (db : DB) :
    (insertDetailStmt saleId productId qty price db).products = db.products := rfl

lemma updateStockStmt_products (qty : Int) (pid : Nat) (db : DB) :
    (updateStockStmt qty pid db).products =
      db.products.map fun p =>
        if p.id = pid then { p with stock := p.stock - qty } else p := rfl

lemma applyItems_products (items : List SaleItem) :
    ∀ (db : DB) (sid : Nat),
      (applyItems sid items db).products =
        db.products.map fun p => { p with stock := p.stock - qtySum p.id items } := by
  induction items with
  | nil =>
    intro db sid
    simp [applyItems, qtySum_nil]
  | cons it rest ih =>
    intro db sid
    show (applyItems sid rest _).products = _
    rw [ih]
    simp only [updateStockStmt, insertDetailStmt, List.map_map]
    refine List.map_congr_left fun p _ => ?_
    by_cases h : p.id = it.id
    · simp [Function.comp, h, qtySum_cons, sub_sub]
    · have h' : ¬ it.id = p.id := fun he => h he.symm
      simp [Function.comp, h, h', qtySum_cons]

lemma applyItems_sales (items : List SaleItem) :
    ∀ (db : DB) (sid : Nat), (applyItems sid items db).sales = db.sales := by
  induction items with
  | nil => intro db sid; rfl
  | cons it rest ih => intro db sid; exact ih _ _

lemma applyItems_nextSaleId (items : List SaleItem) :
    ∀ (db : DB) (sid : Nat), (applyItems sid items db).nextSaleId = db.nextSaleId := by
  induction items with
  | nil => intro db sid; rfl
  | cons it rest ih => intro db sid; exact ih _ _

lemma applyItems_sale_details (items : List SaleItem) :
    ∀ (db : DB) (sid : Nat),
      (applyItems sid items db).sale_details =
        db.sale_details ++ detailsOf sid db.nextDetailId items := by
  induction items with
  | nil => intro db sid; simp [applyItems, detailsOf]
  | cons it rest ih =>
    intro db sid
    show (applyItems sid rest _).sale_details = _
    rw [ih]
    simp [updateStockStmt, insertDetailStmt, detailsOf]

lemma runItems_noFail (items : List SaleItem) :
    ∀ (k sid : Nat) (db : DB),
      runItems noFail k sid items db = some (applyItems sid items db) := by
  induction items with
  | nil => intro k sid db; rfl
  | cons it rest ih =>
    intro k sid db
    simp only [runItems, applyItems, noFail]
    exact ih _ _ _

lemma runItems_some (items : List SaleItem) :
    ∀ (fail : Nat → Bool) (k sid : Nat) (db d : DB),
      runItems fail k sid items db = some d → d = applyItems sid items db := by
  induction items with
  | nil =>
    intro fail k sid db d h
    simpa [runItems, applyItems] using h.symm
  | cons it rest ih =>
    intro fail k sid db d h
    simp only [runItems] at h
    by_cases h0 : fail k
    · simp [h0] at h
    · simp only [h0, if_neg, Bool.false_eq_true, if_false] at h
      by_cases h1 : fail (k + 1)
      · simp [h1] at h
      · simp only [h1, Bool.false_eq_true, if_false] at h
        exact ih _ _ _ _ _ h

/-- The transaction of POST /api/sales is all-or-nothing: it either
leaves the store untouched and reports failure, or commits the full
effect and returns the new sale id. -/
lemma postSales_cases (fail : Nat → Bool) (now : Nat) (db : DB) (total : Rat)
    (items : List SaleItem) :
    postSales fail now db total items = (db, none) ∨
    postSales fail now db total items =
      (commitSale now total items db, some db.nextSaleId) := by
  by_cases h0 : fail 0
  · left; simp [postSales, h0]
  · rcases hr : runItems fail 1 (insertSaleStmt total now db).2 items
      (insertSaleStmt total now db).1 with _ | d
    · left; simp [postSales, h0, hr]
    · right
      have hd := runItems_some items fail 1 _ _ _ hr
      have h2 : (insertSaleStmt total now db).2 = db.nextSaleId := rfl
      rw [h2] at hr hd
      simp [postSales, h0, hr, hd, commitSale, h2]

lemma postSales_noFail (now : Nat) (db : DB) (total : Rat)
    (items : List SaleItem) :
    postSales noFail now db total items =
      (commitSale now total items db, some db.nextSaleId) := by
  rcases postSales_cases noFail now db total items with h | h
  · exfalso
    have := runItems_noFail items 1 (insertSaleStmt total now db).2
      (insertSaleStmt total now db).1
    simp [postSales, noFail, this] at h
  · exact h

lemma commitSale_products (now : Nat) (total : Rat) (items : List SaleItem)
    (db : DB) :
    (commitSale now total items db).products =
      db.products.map fun p => { p with stock := p.stock - qtySum p.id items } := by
  simp [commitSale, applyItems_products, insertSaleStmt]

lemma commitSale_sales (now : Nat) (total : Rat) (items : List SaleItem)
    (db : DB) :
    (commitSale now total items db).sales =
      db.sales ++ [{ id := db.nextSaleId, total := total, date := now }] := by
  simp [commitSale, applyItems_sales, insertSaleStmt]

lemma commitSale_sale_details (now : Nat) (total : Rat) (items : List SaleItem)
    (db : DB) :
    (commitSale now total items db).sale_details =
      db.sale_details ++ detailsOf db.nextSaleId db.nextDetailId items := by
  simp [commitSale, applyItems_sale_details, insertSaleStmt]

lemma qtySum_eq_zero {pid : Nat} {items : List SaleItem}
    (h : ∀ it ∈ items, it.id ≠ pid) : qtySum pid items = 0 := by
  induction items with
  | nil => rfl
  | cons it rest ih =>
    have h1 : ¬ it.id = pid := h it (by simp)
    rw [qtySum_cons, if_neg h1, zero_add]
    exact ih fun x hx => h x (by simp [hx])

lemma stock_sub_zero (p : Product) (z : Int) (hz : z = 0) :
    { p with stock := p.stock - z } = p := by
  rw [hz, sub_zero]

/-- A small concrete store used to instantiate the theorems: two seeded
products, no sales yet. -/
def sampleDB : DB :=
  { products :=
      [ { id := 1, name := "Rollo Papel Térmico 80mm", price := 5 / 2,
          stock := 500, barcode := some "8412345678906" },
        { id := 2, name := "Lector de Código de Barras", price := 45,
          stock := 100, barcode := some "8412345678902" } ],
    sales := [], sale_details := [], nextSaleId := 1, nextDetailId := 1 }

/-! ### Claim theorems -/

/-- C1: every create-sale request is all-or-nothing: either the request
fails and the products, sales, and sale_details tables are exactly as
before, or it succeeds and exactly one new sale header row is appended,
one line-item row per cart item is appended, and each cart item's stock
decrement is applied. -/
theorem c1_create_sale_atomic (fail : Nat → Bool) (now : Nat) (db : DB)
    (total : Rat) (items : List SaleItem) :
    ((postSales fail now db total items).2 = none ∧
      (postSales fail now db total items).1.products = db.products ∧
      (postSales fail now db total items).1.sales = db.sales ∧
      (postSales fail now db total items).1.sale_details = db.sale_details) ∨
    ((postSales fail now db total items).2 = some db.nextSaleId ∧
      (postSales fail now db total items).1.sales =
        db.sales ++ [{ id := db.nextSaleId, total := total, date := now }] ∧
      (postSales fail now db total items).1.sale_details =
        db.sale_details ++ detailsOf db.nextSaleId db.nextDetailId items ∧
      (postSales fail now db total items).1.products =
        db.products.map fun p =>
          { p with stock := p.stock - qtySum p.id items }) := by
  rcases postSales_cases fail now db total items with h | h
  · left; rw [h]; exact ⟨rfl, rfl, rfl, rfl⟩
  · right
    rw [h]
    exact ⟨rfl, commitSale_sales now total items db,
      commitSale_sale_details now total items db,
      commitSale_products now total items db⟩

/-- C3: after a successful create-sale the stock of each product drops
by the summed quantity of its occurrences in the cart, and a product no
cart item refers to is still present entirely unchanged. -/
theorem c3_stock_decrement_frame (fail : Nat → Bool) (now : Nat) (db : DB)
    (total : Rat) (items : List SaleItem) (sid : Nat)
    (hs : (postSales fail now db total items).2 = some sid) :
    (postSales fail now db total items).1.products =
      db.products.map (fun p => { p with stock := p.stock - qtySum p.id items })
    ∧ ∀ p ∈ db.products, (∀ it ∈ items, it.id ≠ p.id) →
        p ∈ (postSales fail now db total items).1.products := by
  rcases postSales_cases fail now db total items with h | h
  · rw [h] at hs; exact absurd hs (by simp)
  · rw [h]
    refine ⟨commitSale_products now total items db, fun p hp hnone => ?_⟩
    rw [commitSale_products now total items db]
    exact List.mem_map.mpr
      ⟨p, hp, stock_sub_zero p _ (qtySum_eq_zero hnone)⟩

/-- C3 witness: selling 3 units of product 1 from the sample store. -/
theorem c3_stock_decrement_frame_witness :
    (postSales noFail 7 sampleDB (15 / 2)
        [{ id := 1, quantity := 3, price := 5 / 2 }]).1.products =
      sampleDB.products.map (fun p =>
        { p with stock := p.stock -
            qtySum p.id [{ id := 1, quantity := 3, price := 5 / 2 }] })
    ∧ ∀ p ∈ sampleDB.products,
        (∀ it ∈ [({ id := 1, quantity := 3, price := 5 / 2 } : SaleItem)],
          it.id ≠ p.id) →
        p ∈ (postSales noFail 7 sampleDB (15 / 2)
              [{ id := 1, quantity := 3, price := 5 / 2 }]).1.products :=
  c3_stock_decrement_frame noFail 7 sampleDB (15 / 2)
    [{ id := 1, quantity := 3, price := 5 / 2 }] 1 (by decide)

/-- C5: create-sale validates nothing: with no runtime failure it
succeeds for every supplied total (consistent with the cart or not), and
when a product's stock is smaller than the cart's summed quantity for
it, the committed store holds that product with a negative stock. -/
theorem c5_no_validation_negative_stock (now : Nat) (db : DB) (total : Rat)
    (items : List SaleItem) :
    (postSales noFail now db total items).2 = some db.nextSaleId
    ∧ ∀ p ∈ db.products, p.stock < qtySum p.id items →
        ({ p with stock := p.stock - qtySum p.id items } ∈
            (postSales noFail now db total items).1.products
          ∧ p.stock - qtySum p.id items < 0) := by
  rw [postSales_noFail]
  refine ⟨rfl, fun p hp hlt => ?_⟩
  constructor
  · rw [commitSale_products]
    exact List.mem_map.mpr ⟨p, hp, rfl⟩
  · omega

/-- C8: create-sale with an empty items list succeeds, appends exactly
one sale row carrying the supplied total, changes no product, and the
new sale has zero line items. -/
theorem c8_empty_cart (db : DB) (total : Rat) (now : Nat)
    (hfresh : ∀ sd ∈ db.sale_details, sd.sale_id ≠ db.nextSaleId) :
    postSales noFail now db total [] =
      ({ db with
          sales := db.sales ++
            [{ id := db.nextSaleId, total := total, date := now }],
          nextSaleId := db.nextSaleId + 1 }, some db.nextSaleId)
    ∧ getSaleDetailItems (postSales noFail now db total []).1 db.nextSaleId
        = [] := by
  have h1 : postSales noFail now db total [] =
      ({ db with
          sales := db.sales ++
            [{ id := db.nextSaleId, total := total, date := now }],
          nextSaleId := db.nextSaleId + 1 }, some db.nextSaleId) := by
    rw [postSales_noFail]; rfl
  refine ⟨h1, ?_⟩
  rw [h1]
  have h2 : (db.sale_details.filter fun sd => sd.sale_id = db.nextSaleId)
      = [] := by
    rw [List.filter_eq_nil_iff]
    intro sd hsd
    simpa using hfresh sd hsd
  simp [getSaleDetailItems, h2]

/-- C8 witness: an empty cart against the sample store with total 9. -/
theorem c8_empty_cart_witness :
    postSales noFail 3 sampleDB 9 [] =
      ({ sampleDB with
          sales := sampleDB.sales ++
            [{ id := sampleDB.nextSaleId, total := 9, date := 3 }],
          nextSaleId := sampleDB.nextSaleId + 1 }, some sampleDB.nextSaleId)
    ∧ getSaleDetailItems (postSales noFail 3 sampleDB 9 []).1
        sampleDB.nextSaleId = [] :=
  c8_empty_cart sampleDB 9 3 (by intro sd hsd; simp [sampleDB] at hsd)

/-! ### The read-back join of GET /api/sales/:id -/

lemma find?_append_of_none {α : Type} {l1 l2 : List α} {p : α → Bool}
    (h : ∀ a ∈ l1, ¬ p a) : (l1 ++ l2).find? p = l2.find? p := by
  induction l1 with
  | nil => rfl
  | cons x xs ih =>
    rw [List.cons_append, List.find?_cons_of_neg _ (h x (by simp))]
    exact ih fun a ha => h a (by simp [ha])

lemma detailsOf_sale_id {sd : SaleDetail} :
    ∀ {items : List SaleItem} {sid did : Nat},
      sd ∈ detailsOf sid did items → sd.sale_id = sid := by
  intro items
  induction items with
  | nil => intro sid did h; simp [detailsOf] at h
  | cons it rest ih =>
    intro sid did h
    rcases (List.mem_cons).mp h with h | h
    · rw [h]
    · exact ih h

lemma filter_map_stock (prods : List Product) (g : Product → Int) (pid : Nat) :
    ((prods.map fun p => { p with stock := g p }).filter fun p => p.id = pid)
      = (prods.filter fun p => p.id = pid).map fun p => { p with stock := g p } := by
  induction prods with
  | nil => rfl
  | cons q rest ih =>
    by_cases h : q.id = pid
    · simp [List.filter_cons, h, ih]
    · simp [List.filter_cons, h, ih]

lemma rows_of_detailsOf :
    ∀ (items : List SaleItem) (prods : List Product) (sid did : Nat),
      (∀ it ∈ items, (prods.filter fun p => p.id = it.id).length = 1) →
      ((detailsOf sid did items).flatMap fun sd =>
          (prods.filter fun p => p.id = sd.product_id).map fun p =>
            ({ name := p.name, quantity := sd.quantity, price := sd.price } :
              DetailRow)).map (fun r => (r.quantity, r.price))
        = items.map fun it => (it.quantity, it.price) := by
  intro items
  induction items with
  | nil => intro prods sid did _; rfl
  | cons it rest ih =>
    intro prods sid did h
    have h1 : (prods.filter fun p => p.id = it.id).length = 1 :=
      h it (by simp)
    rcases List.length_eq_one.mp h1 with ⟨p0, hp0⟩
    simp only [detailsOf, List.flatMap_cons, List.map_append, List.map_cons,
      List.map_nil, hp0]
    rw [ih prods sid (did + 1) fun x hx => h x (by simp [hx])]
    rfl

/-- C2: after checking out a cart whose items each reference exactly one
existing product, reading the sale back returns the supplied total as
the stored total, line items whose quantities and unit prices are
exactly the cart's, and the line-item sum equals the stored total iff
the supplied total was consistent with the cart. -/
theorem c2_roundtrip_cart (now : Nat) (db : DB) (total : Rat)
    (items : List SaleItem)
    (hfreshD : ∀ sd ∈ db.sale_details, sd.sale_id ≠ db.nextSaleId)
    (hfreshS : ∀ s ∈ db.sales, s.id ≠ db.nextSaleId)
    (hex : ∀ it ∈ items, (db.products.filter fun p => p.id = it.id).length = 1) :
    ((postSales noFail now db total items).1.sales.find? fun s =>
        s.id = db.nextSaleId)
      = some { id := db.nextSaleId, total := total, date := now }
    ∧ (getSaleDetailItems (postSales noFail now db total items).1
          db.nextSaleId).map (fun r => (r.quantity, r.price))
        = items.map (fun it => (it.quantity, it.price))
    ∧ (((getSaleDetailItems (postSales noFail now db total items).1
            db.nextSaleId).map fun r => r.price * (r.quantity : Rat)).sum = total
        ↔ ((items.map fun it => it.price * (it.quantity : Rat)).sum = total)) := by
  rw [postSales_noFail]
  have hfind :
      ((commitSale now total items db).sales.find? fun s =>
        s.id = db.nextSaleId)
      = some { id := db.nextSaleId, total := total, date := now } := by
    rw [commitSale_sales,
      find?_append_of_none (fun s hs => by simpa using hfreshS s hs)]
    simp [List.find?_cons]
  have hrows :
      (getSaleDetailItems (commitSale now total items db)
          db.nextSaleId).map (fun r => (r.quantity, r.price))
        = items.map fun it => (it.quantity, it.price) := by
    have hfilter :
        ((commitSale now total items db).sale_details.filter fun sd =>
          sd.sale_id = db.nextSaleId)
        = detailsOf db.nextSaleId db.nextDetailId items := by
      rw [commitSale_sale_details, List.filter_append]
      have h1 : (db.sale_details.filter fun sd =>
          sd.sale_id = db.nextSaleId) = [] := by
        rw [List.filter_eq_nil_iff]
        intro sd hsd
        simpa using hfreshD sd hsd
      have h2 : ((detailsOf db.nextSaleId db.nextDetailId items).filter
          fun sd => sd.sale_id = db.nextSaleId)
          = detailsOf db.nextSaleId db.nextDetailId items := by
        rw [List.filter_eq_self]
        intro sd hsd
        simp [detailsOf_sale_id hsd]
      rw [h1, h2, List.nil_append]
    have hex' : ∀ it ∈ items,
        ((commitSale now total items db).products.filter fun p =>
          p.id = it.id).length = 1 := by
      intro it hit
      rw [commitSale_products, filter_map_stock, List.length_map]
      exact hex it hit
    unfold getSaleDetailItems
    rw [hfilter]
    exact rows_of_detailsOf items _ db.nextSaleId db.nextDetailId hex'
  dsimp only
  refine ⟨hfind, hrows, ?_⟩
  have hsum :
      ((getSaleDetailItems (commitSale now total items db)
          db.nextSaleId).map fun r => r.price * (r.quantity : Rat)).sum
        = ((items.map fun it => it.price * (it.quantity : Rat)).sum) := by
    have hcomp1 :
        ((getSaleDetailItems (commitSale now total items db)
            db.nextSaleId).map fun r => r.price * (r.quantity : Rat))
          = ((getSaleDetailItems (commitSale now total items db)
              db.nextSaleId).map (fun r => (r.quantity, r.price))).map
            fun q => q.2 * (q.1 : Rat) := by
      rw [List.map_map]; rfl
    rw [hcomp1, hrows, List.map_map]
    rfl
  rw [hsum]

/-- C2 witness: the seeded 2.50 product, quantity 3, consistent total
7.50, against the sample store. -/
theorem c2_roundtrip_cart_witness :
    ((postSales noFail 7 sampleDB (15 / 2)
        [{ id := 1, quantity := 3, price := 5 / 2 }]).1.sales.find? fun s =>
        s.id = sampleDB.nextSaleId)
      = some { id := sampleDB.nextSaleId, total := 15 / 2, date := 7 }
    ∧ (getSaleDetailItems (postSales noFail 7 sampleDB (15 / 2)
          [{ id := 1, quantity := 3, price := 5 / 2 }]).1
          sampleDB.nextSaleId).map (fun r => (r.quantity, r.price))
        = [({ id := 1, quantity := 3, price := 5 / 2 } : SaleItem)].map
            (fun it => (it.quantity, it.price))
    ∧ (((getSaleDetailItems (postSales noFail 7 sampleDB (15 / 2)
            [{ id := 1, quantity := 3, price := 5 / 2 }]).1
            sampleDB.nextSaleId).map fun r => r.price * (r.quantity : Rat)).sum
          = 15 / 2
        ↔ (([({ id := 1, quantity := 3, price := 5 / 2 } : SaleItem)].map
            fun it => it.price * (it.quantity : Rat)).sum = 15 / 2)) :=
  c2_roundtrip_cart 7 sampleDB (15 / 2)
    [{ id := 1, quantity := 3, price := 5 / 2 }]
    (by intro sd hsd; simp [sampleDB] at hsd)
    (by intro s hs; simp [sampleDB] at hs)
    (by decide)

/-- C10: each line item returned by get-sale-detail pairs the historical
quantity and unit price of a sale_details row with the current name of a
product row whose id matches (a live inner join), and the number of
returned rows is the sum over the sale's detail rows of how many product
rows match — so a detail row whose product id matches no product
contributes no line item. -/
theorem c10_items_live_inner_join (db : DB) (sid : Nat) :
    (getSaleDetailItems db sid).length =
      ((db.sale_details.filter fun sd => sd.sale_id = sid).map fun sd =>
        (db.products.filter fun p => p.id = sd.product_id).length).sum
    ∧ ∀ row ∈ getSaleDetailItems db sid,
        ∃ p ∈ db.products, ∃ sd ∈ db.sale_details,
          sd.sale_id = sid ∧ sd.product_id = p.id ∧
          row = { name := p.name, quantity := sd.quantity, price := sd.price } := by
  constructor
  · rw [getSaleDetailItems, List.length_flatMap]
    congr 1
    refine List.map_congr_left fun sd _ => ?_
    simp [Function.comp]
  · intro row hrow
    rw [getSaleDetailItems, List.mem_flatMap] at hrow
    rcases hrow with ⟨sd, hsd, hrow⟩
    rcases List.mem_filter.mp hsd with ⟨hsdmem, hsdsale⟩
    rcases List.mem_map.mp hrow with ⟨p, hp, hpeq⟩
    rcases List.mem_filter.mp hp with ⟨hpmem, hpid⟩
    have hpid' : p.id = sd.product_id := by simpa using hpid
    exact ⟨p, hpmem, sd, hsdmem, by simpa using hsdsale,
      hpid'.symm, hpeq.symm⟩

/-! ### The ordering of GET /api/sales -/

lemma insDesc_perm (e : SalesRow) (l : List SalesRow) :
    List.Perm (insDesc e l) (e :: l) := by
  induction l with
  | nil => exact List.Perm.refl _
  | cons x xs ih =>
    by_cases h : x.date ≤ e.date
    · simp [insDesc, h]
    · simp only [insDesc, if_neg h]
      exact (ih.cons x).trans (List.Perm.swap e x xs)

lemma mem_insDesc {y e : SalesRow} {l : List SalesRow}
    (h : y ∈ insDesc e l) : y = e ∨ y ∈ l := by
  have := (insDesc_perm e l).mem_iff.mp h
  simpa using this

lemma insDesc_pairwise {e : SalesRow} {l : List SalesRow}
    (h : l.Pairwise fun a b => b.date ≤ a.date) :
    (insDesc e l).Pairwise fun a b => b.date ≤ a.date := by
  induction l with
  | nil => simp [insDesc]
  | cons x xs ih =>
    rcases List.pairwise_cons.mp h with ⟨hx, hxs⟩
    by_cases hle : x.date ≤ e.date
    · rw [insDesc, if_pos hle]
      refine List.pairwise_cons.mpr ⟨?_, h⟩
      intro y hy
      rcases List.mem_cons.mp hy with hy | hy
      · rw [hy]; exact hle
      · exact le_trans (hx y hy) hle
    · rw [insDesc, if_neg hle]
      refine List.pairwise_cons.mpr ⟨?_, ih hxs⟩
      intro y hy
      rcases mem_insDesc hy with hy | hy
      · rw [hy]; omega
      · exact hx y hy

lemma filter_insDesc (e : SalesRow) (l : List SalesRow) (d : Nat) :
    (insDesc e l).filter (fun r => r.date = d)
      = if e.date = d then e :: l.filter (fun r => r.date = d)
        else l.filter (fun r => r.date = d) := by
  induction l with
  | nil => by_cases h : e.date = d <;> simp [insDesc, h]
  | cons x xs ih =>
    by_cases hle : x.date ≤ e.date
    · rw [insDesc, if_pos hle]
      by_cases hed : e.date = d <;> simp [List.filter_cons, hed]
    · rw [insDesc, if_neg hle]
      by_cases hed : e.date = d
      · have hxd : ¬ x.date = d := by omega
        simp [List.filter_cons, hxd, ih, hed]
      · by_cases hxd : x.date = d <;> simp [List.filter_cons, hxd, ih, hed]

lemma sortDesc_perm (l : List SalesRow) : List.Perm (sortDesc l) l := by
  induction l with
  | nil => exact List.Perm.refl _
  | cons x xs ih =>
    exact (insDesc_perm x (sortDesc xs)).trans (ih.cons x)

lemma sortDesc_pairwise (l : List SalesRow) :
    (sortDesc l).Pairwise fun a b => b.date ≤ a.date := by
  induction l with
  | nil => simp [sortDesc]
  | cons x xs ih => exact insDesc_pairwise ih

lemma filter_sortDesc (l : List SalesRow) (d : Nat) :
    (sortDesc l).filter (fun r => r.date = d)
      = l.filter (fun r => r.date = d) := by
  induction l with
  | nil => rfl
  | cons x xs ih =>
    show (insDesc x (sortDesc xs)).filter _ = _
    rw [filter_insDesc, ih]
    by_cases hxd : x.date = d <;> simp [List.filter_cons, hxd]

/-- C4: list-sales returns the grouped sale rows sorted by descending
timestamp (a permutation of one row per stored sale), and the rows of
any fixed timestamp appear exactly in insertion order. -/
theorem c4_list_sales_ordering (db : DB) :
    (listSales db).Pairwise (fun a b => b.date ≤ a.date)
    ∧ List.Perm (listSales db) (db.sales.map (rowOf db))
    ∧ ∀ d, (listSales db).filter (fun r => r.date = d)
        = (db.sales.map (rowOf db)).filter (fun r => r.date = d) :=
  ⟨sortDesc_pairwise _, sortDesc_perm _, fun d => filter_sortDesc _ d⟩

/-! ### The printer routes -/

/-- C6: get-sale-detail on an id no stored sale carries answers 404,
returns the store unchanged, and emits no printer directive. -/
theorem c6_sale_not_found (db : DB) (sid : Nat)
    (h : ∀ s ∈ db.sales, s.id ≠ sid) :
    getSaleDetail db sid = (db, .notFound, []) := by
  have hnone : db.sales.find? (fun s => s.id = sid) = none := by
    rw [List.find?_eq_none]
    intro s hs
    simpa using h s hs
  rw [getSaleDetail, hnone]

/-- C6 witness: id 42 against the sample store, which has no sales. -/
theorem c6_sale_not_found_witness :
    getSaleDetail sampleDB 42 = (sampleDB, .notFound, []) :=
  c6_sale_not_found sampleDB 42 (by intro s hs; simp [sampleDB] at hs)

/-- C7: when opening the printer connection fails, print-receipt and
open-drawer answer with a connection failure and emit no directive at
all; the format sequence appears only in the successful-open branch. -/
theorem c7_printer_open_failure (saleId : Nat) (total : Rat)
    (items : List PrintItem) (nowStr : String) :
    printReceipt true saleId total items nowStr = (.printerConnFailed, [])
    ∧ openDrawer true = (.printerConnFailed, [])
    ∧ (printReceipt false saleId total items nowStr).1 = .printed
    ∧ (printReceipt false saleId total items nowStr).2 ≠ [] := by
  refine ⟨rfl, rfl, rfl, ?_⟩
  simp [printReceipt]

/-- C9: the successful print sequence contains the ticket line with the
sale id zero-padded to 6 digits, and, for every item, a table row whose
first cell is the quantity, whose second cell is the product name
truncated to its first 15 characters, and whose third cell is the line
total (unit price × quantity) aligned right. -/
theorem c9_receipt_formatting (saleId : Nat) (total : Rat)
    (items : List PrintItem) (nowStr : String) :
    Directive.text ("Ticket: #" ++ padStart (toString saleId) 6 '0')
        ∈ (printReceipt false saleId total items nowStr).2
    ∧ (padStart (toString saleId) 6 '0').length
        = max (toString saleId).length 6
    ∧ ∀ it ∈ items,
        Directive.tableCustom
          [ { text := toString it.quantity, align := "LEFT", width := 15 / 100 },
            { text := it.name.take 15, align := "LEFT", width := 55 / 100 },
            { text := "$" ++ toFixed2 (it.price * it.quantity),
              align := "RIGHT", width := 30 / 100 } ]
          ∈ (printReceipt false saleId total items nowStr).2 := by
  refine ⟨?_, ?_, ?_⟩
  · simp [printReceipt]
  · rw [padStart, String.length_append]
    have : (String.mk (List.replicate (6 - (toString saleId).length) '0')).length
        = 6 - (toString saleId).length := by
      simp
    omega
  · intro it hit
    have : printItemRow it ∈ (printReceipt false saleId total items nowStr).2 := by
      simp only [printReceipt, if_neg (by simp : ¬ (false = true))]
      exact List.mem_append.mpr (Or.inl (List.mem_append.mpr
        (Or.inr (List.mem_map.mpr ⟨it, hit, rfl⟩))))
    simpa [printItemRow] using this

end BettersPOS
